import Mathlib

/-!
Verification of the copilot-chargeback reconciliation action (`src/main.js`).

The JavaScript source is shallowly embedded: remote calls (GitHub API
requests) are modelled as explicit oracle functions returning
`Except String α` (a thrown error carries its message), the JS `Set`
used for aggregation is modelled as an insertion-ordered duplicate-free
list, and the orchestration in `run` is a pure function from the inputs
and oracles to an observable outcome (attempted mutation requests, the
`setFailed` message, the `result` output, and console warn/error lines).
-/

namespace CopilotChargeback

/-- One entry of a cost center's `resources` array (`type` and `name`
fields as returned by the billing API). -/
structure Resource where
  type : String
  name : String
deriving DecidableEq, Repr

/-- One cost center record from
`GET /enterprises/{enterprise}/settings/billing/cost-centers`. -/
structure CostCenter where
  id : String
  name : String
  resources : List Resource
deriving DecidableEq, Repr

/-- `getCostCenter` (main.js lines 133-185): find the cost center whose
`name` equals the requested name; on a miss throw
`Cost center with name <name> not found`; on a hit partition `resources`
by `type` into `Org` and `User` entries and return
`[cost_center.id, user_names, organization_names]`. -/
def getCostCenter (costCenters : List CostCenter) (cost_center_name : String) :
    Except String (String × List String × List String) :=
  match costCenters.find? (fun center => center.name == cost_center_name) with
  | none => .error ("Cost center with name " ++ cost_center_name ++ " not found")
  | some cost_center =>
      let org_resources := cost_center.resources.filter (fun r => r.type == "Org")
      let user_resources := cost_center.resources.filter (fun r => r.type == "User")
      .ok (cost_center.id, user_resources.map (fun u => u.name),
        org_resources.map (fun o => o.name))

/-- The `console.error` line printed by `getCostCenter` when no cost
center matches (main.js lines 152-154). -/
def availableCentersLog (costCenters : List CostCenter) : String :=
  "[ERROR] Cost center not found. Available centers: " ++
    String.intercalate ", " (costCenters.map (fun c => c.name))

/-- The `console.error` line printed by `getCostCenter`'s catch block
before rethrowing (main.js line 176). -/
def costCenterCatchLog (msg : String) : String :=
  "[ERROR] Failed to get cost center ID: " ++ msg

/-- Insertion into the JS `Set` `all_users` (main.js line 91):
duplicates are dropped, first-insertion order is kept. -/
def setAdd (s : List String) (x : String) : List String :=
  if x ∈ s then s else s ++ [x]

/-- One iteration of the `for (const org of organizations)` loop of
`getOrganizationUsers` (main.js lines 93-125): when a team name is
present (JS truthiness: a non-empty string) fetch the team's members,
otherwise the organization's members; on success add every login to the
set, on a thrown error emit a `[WARN]` line and continue with the
accumulator unchanged. -/
def sourceStep (team_name : String)
    (fetchTeam : String → String → Except String (List String))
    (fetchOrg : String → Except String (List String))
    (acc : List String × List String) (org : String) :
    List String × List String :=
  if team_name != "" then
    match fetchTeam org team_name with
    | .ok team_members => (team_members.foldl setAdd acc.1, acc.2)
    | .error e =>
        (acc.1, acc.2 ++ ["[WARN] Could not fetch team " ++ team_name ++
          " from org " ++ org ++ ": " ++ e])
  else
    match fetchOrg org with
    | .ok org_members => (org_members.foldl setAdd acc.1, acc.2)
    | .error e =>
        (acc.1, acc.2 ++ ["[WARN] Could not fetch members from org " ++
          org ++ ": " ++ e])

/-- `getOrganizationUsers` (main.js lines 86-131): fold the per-source
step over all organizations starting from an empty set; returns the
aggregated member list (`Array.from(all_users)`) together with the
`[WARN]` lines emitted along the way. -/
def getOrganizationUsers (team_name : String)
    (fetchTeam : String → String → Except String (List String))
    (fetchOrg : String → Except String (List String))
    (organizations : List String) : List String × List String :=
  organizations.foldl (sourceStep team_name fetchTeam fetchOrg) ([], [])

/-- The reconciliation step of `run` (main.js lines 41-46):
`users_to_add = github_users.filter(u => !cost_center_users.includes(u))`
and `users_to_remove = cost_center_users.filter(u => !github_users.includes(u))`,
with `desired = github_users` and `current = cost_center_users`. -/
def reconcile (desired current : List String) : List String × List String :=
  (desired.filter (fun user => !(current.contains user)),
   current.filter (fun user => !(desired.contains user)))

/-- Kind of a mutation request issued against the cost center. -/
inductive MutKind where
  | add
  | remove
deriving DecidableEq, Repr

/-- One mutation request: a `POST`/`DELETE` on
`/enterprises/{enterprise}/settings/billing/cost-centers/{cost_center_id}/resource`
with `users: [user]` (main.js lines 51-73). -/
structure MutationReq where
  kind : MutKind
  user : String
deriving DecidableEq, Repr

/-- The sequence of mutation requests `run` issues: the whole add batch
(main.js lines 51-61) followed by the whole remove batch (lines 63-73),
each in reconciliation order. -/
def mutationRequests (users_to_add users_to_remove : List String) :
    List MutationReq :=
  users_to_add.map (fun u => ⟨MutKind.add, u⟩) ++
    users_to_remove.map (fun u => ⟨MutKind.remove, u⟩)

/-- Sequential awaited execution of the mutation requests: each request
is attempted in order; the first thrown error stops the loop (the
exception propagates out of `run`'s loop body). Returns the list of
requests actually attempted and the first error message, if any. -/
def runMutations (mutate : MutationReq → Except String Unit) :
    List MutationReq → List MutationReq × Option String
  | [] => ([], none)
  | r :: rest =>
    match mutate r with
    | .ok _ =>
        let p := runMutations mutate rest
        (r :: p.1, p.2)
    | .error e => ([r], some e)

/-- Everything observable about one invocation of `run`: the mutation
requests attempted, the `core.setFailed` message (if any), the `result`
output set by `core.setOutput` (if any), and the console warn/error
lines. -/
structure RunOutcome where
  attempted : List MutationReq
  failed : Option String
  output : Option String
  warnings : List String
  errorLogs : List String
deriving DecidableEq, Repr

/-- The tail of `run` after both member lists are known (main.js lines
41-79): reconcile, apply the add batch then the remove batch, and on
success set the `result` output
`Added users: <join toAdd>, Removed users: <join toRemove>`; a thrown
mutation error reaches the catch block, which calls
`core.setFailed(error.message)` and sets no output. -/
def runCore (cost_center_users github_users : List String)
    (mutate : MutationReq → Except String Unit) :
    List MutationReq × Option String × Option String :=
  let users_to_add := (reconcile github_users cost_center_users).1
  let users_to_remove := (reconcile github_users cost_center_users).2
  let p := runMutations mutate (mutationRequests users_to_add users_to_remove)
  match p.2 with
  | some e => (p.1, some e, none)
  | none =>
      (p.1, none, some ("Added users: " ++ String.intercalate ", " users_to_add ++
        ", Removed users: " ++ String.intercalate ", " users_to_remove))

/-- `run` (main.js lines 16-84): resolve the cost center, aggregate the
desired members from its linked organizations, reconcile against its
direct `User` entries, apply the mutations, and report. Any error thrown
before the loops (cost center not found) is caught by the same catch
block: `core.setFailed(error.message)`, no output. -/
def run (github_team github_cost_center_name : String)
    (costCenters : List CostCenter)
    (fetchTeam : String → String → Except String (List String))
    (fetchOrg : String → Except String (List String))
    (mutate : MutationReq → Except String Unit) : RunOutcome :=
  match getCostCenter costCenters github_cost_center_name with
  | .error e =>
      { attempted := [], failed := some e, output := none, warnings := [],
        errorLogs := [availableCentersLog costCenters, costCenterCatchLog e] }
  | .ok (_cost_center_id, cost_center_users, cost_center_orgs) =>
      let gu := getOrganizationUsers github_team fetchTeam fetchOrg cost_center_orgs
      let p := runCore cost_center_users gu.1 mutate
      { attempted := p.1, failed := p.2.1, output := p.2.2, warnings := gu.2,
        errorLogs := [] }

/-- The value bound to `github_users` in `run` (main.js line 34), i.e.
the desired set handed to the reconciliation step, when the run gets
that far. -/
def desiredHandedToReconcile (github_team github_cost_center_name : String)
    (costCenters : List CostCenter)
    (fetchTeam : String → String → Except String (List String))
    (fetchOrg : String → Except String (List String)) : Option (List String) :=
  match getCostCenter costCenters github_cost_center_name with
  | .error _ => none
  | .ok (_, _, cost_center_orgs) =>
      some (getOrganizationUsers github_team fetchTeam fetchOrg cost_center_orgs).1

/-- The value bound to `cost_center_users` in `run` (main.js line 30),
i.e. the current set handed to the reconciliation step, when the run
gets that far. -/
def currentHandedToReconcile (github_cost_center_name : String)
    (costCenters : List CostCenter) : Option (List String) :=
  match getCostCenter costCenters github_cost_center_name with
  | .error _ => none
  | .ok (_, cost_center_users, _) => some cost_center_users

/-- The fetch actually performed for one source organization: the team
branch when a team name is present (JS truthiness), the organization
branch otherwise (main.js lines 94-124). -/
def fetchFor (team_name : String)
    (fetchTeam : String → String → Except String (List String))
    (fetchOrg : String → Except String (List String))
    (org : String) : Except String (List String) :=
  if team_name != "" then fetchTeam org team_name else fetchOrg org

/-- The `[WARN]` console line emitted when the fetch for one source
fails (main.js lines 106-108 and 120-122). -/
def warnLine (team_name org e : String) : String :=
  if team_name != "" then
    "[WARN] Could not fetch team " ++ team_name ++ " from org " ++ org ++ ": " ++ e
  else
    "[WARN] Could not fetch members from org " ++ org ++ ": " ++ e

/-- String `s` contains `pat` as a contiguous substring. -/
def containsSubstr (s pat : String) : Bool :=
  decide (pat.toList <:+: s.toList)

/-- Concrete mutation oracle: every add/remove request succeeds. -/
def mutateOk : MutationReq → Except String Unit :=
  fun _ => Except.ok ()

/-- Concrete mutation oracle: requests for the login `bad` fail with
message `boom`, all others succeed. -/
def mutateBoom : MutationReq → Except String Unit :=
  fun r => if r.user == "bad" then Except.error "boom" else Except.ok ()

/-- Concrete team oracle: every team fetch fails. -/
def fetchTeamNone : String → String → Except String (List String) :=
  fun _ _ => Except.error "no team"

/-- Concrete organization oracle: `o1` has members `a, b`, every other
organization has members `b, c`. -/
def fetchOrgPair : String → Except String (List String) :=
  fun org => if org == "o1" then Except.ok ["a", "b"] else Except.ok ["b", "c"]

/-- Concrete organization oracle: every organization fetch fails. -/
def fetchOrgDown : String → Except String (List String) :=
  fun _ => Except.error "api down"

/-- Concrete organization oracle: every organization has no members. -/
def fetchOrgEmptyOk : String → Except String (List String) :=
  fun _ => Except.ok []

end CopilotChargeback

namespace CopilotChargeback

/-- Membership in `users_to_add`. -/
lemma mem_reconcile_fst (desired current : List String) (x : String) :
    x ∈ (reconcile desired current).1 ↔ x ∈ desired ∧ x ∉ current := by
  simp [reconcile]

/-- Membership in `users_to_remove`. -/
lemma mem_reconcile_snd (desired current : List String) (x : String) :
    x ∈ (reconcile desired current).2 ↔ x ∈ current ∧ x ∉ desired := by
  simp [reconcile]

/-- C1: the reconciliation step computes `users_to_add` as exactly the
elements of `desired` absent from `current` and `users_to_remove` as
exactly the elements of `current` absent from `desired`; no element is
in both; an empty `desired` gives `users_to_add = []` and
`users_to_remove = current` entirely; an empty `current` gives
`users_to_remove = []`. -/
theorem reconcile_spec (desired current : List String) (x : String) :
    (x ∈ (reconcile desired current).1 ↔ x ∈ desired ∧ x ∉ current) ∧
    (x ∈ (reconcile desired current).2 ↔ x ∈ current ∧ x ∉ desired) ∧
    ¬(x ∈ (reconcile desired current).1 ∧ x ∈ (reconcile desired current).2) ∧
    ((reconcile [] current).1 = [] ∧ (reconcile [] current).2 = current) ∧
    (reconcile desired []).2 = [] := by
  refine ⟨mem_reconcile_fst desired current x, mem_reconcile_snd desired current x, ?_, ⟨?_, ?_⟩, ?_⟩
  · rintro ⟨h1, h2⟩
    rw [mem_reconcile_fst] at h1
    rw [mem_reconcile_snd] at h2
    exact h1.2 h2.1
  · simp [reconcile]
  · simp [reconcile]
  · simp [reconcile]

end CopilotChargeback

namespace CopilotChargeback

/-- `setAdd` adds exactly the new element, as membership. -/
lemma mem_setAdd (acc : List String) (m x : String) :
    x ∈ setAdd acc m ↔ x ∈ acc ∨ x = m := by
  unfold setAdd
  split
  · rename_i h
    constructor
    · exact fun hx => Or.inl hx
    · rintro (hx | rfl)
      · exact hx
      · exact h
  · simp

/-- `setAdd` never introduces a duplicate. -/
lemma nodup_setAdd (acc : List String) (m : String) (h : acc.Nodup) :
    (setAdd acc m).Nodup := by
  unfold setAdd
  split
  · exact h
  · rename_i hm
    simp [List.nodup_append, h]
    intro hmem
    exact hm hmem

/-- Membership after folding a member list into the set. -/
lemma mem_foldl_setAdd (ms : List String) (acc : List String) (x : String) :
    x ∈ ms.foldl setAdd acc ↔ x ∈ acc ∨ x ∈ ms := by
  induction ms generalizing acc with
  | nil => simp
  | cons m rest ih =>
      rw [List.foldl_cons, ih, mem_setAdd]
      simp [or_assoc]

/-- Folding a member list into a duplicate-free set keeps it
duplicate-free. -/
lemma nodup_foldl_setAdd (ms : List String) (acc : List String) (h : acc.Nodup) :
    (ms.foldl setAdd acc).Nodup := by
  induction ms generalizing acc with
  | nil => exact h
  | cons m rest ih =>
      rw [List.foldl_cons]
      exact ih _ (nodup_setAdd acc m h)

/-- The member-set component of one source step, expressed through the
branch-selected fetch. -/
lemma sourceStep_fst (t : String)
    (fT : String → String → Except String (List String))
    (fO : String → Except String (List String))
    (acc : List String × List String) (org : String) :
    (sourceStep t fT fO acc org).1 =
      match fetchFor t fT fO org with
      | .ok ms => ms.foldl setAdd acc.1
      | .error _ => acc.1 := by
  unfold sourceStep fetchFor
  by_cases h : t != ""
  · simp only [if_pos h]
    cases fT org t <;> rfl
  · simp only [if_neg h]
    cases fO org <;> rfl

/-- The warning component of one source step: the accumulated warnings,
plus one `[WARN]` line exactly when the fetch fails. -/
lemma sourceStep_snd (t : String)
    (fT : String → String → Except String (List String))
    (fO : String → Except String (List String))
    (acc : List String × List String) (org : String) :
    (sourceStep t fT fO acc org).2 =
      match fetchFor t fT fO org with
      | .ok _ => acc.2
      | .error e => acc.2 ++ [warnLine t org e] := by
  unfold sourceStep fetchFor warnLine
  by_cases h : t != ""
  · simp only [if_pos h]
    cases fT org t <;> rfl
  · simp only [if_neg h]
    cases fO org <;> rfl

/-- The member-set component of the source fold depends only on the
member-set component of the accumulator. -/
lemma foldl_sourceStep_fst_congr (t : String)
    (fT : String → String → Except String (List String))
    (fO : String → Except String (List String)) (orgs : List String)
    (acc acc2 : List String × List String) (h : acc.1 = acc2.1) :
    (orgs.foldl (sourceStep t fT fO) acc).1 =
      (orgs.foldl (sourceStep t fT fO) acc2).1 := by
  induction orgs generalizing acc acc2 with
  | nil => exact h
  | cons o rest ih =>
      rw [List.foldl_cons, List.foldl_cons]
      apply ih
      rw [sourceStep_fst, sourceStep_fst, h]

/-- Membership in the member set produced by the source fold. -/
lemma mem_foldl_sourceStep (t : String)
    (fT : String → String → Except String (List String))
    (fO : String → Except String (List String)) (orgs : List String)
    (acc : List String × List String) (x : String) :
    x ∈ (orgs.foldl (sourceStep t fT fO) acc).1 ↔
      x ∈ acc.1 ∨ ∃ org ∈ orgs, ∃ ms, fetchFor t fT fO org = .ok ms ∧ x ∈ ms := by
  induction orgs generalizing acc with
  | nil => simp
  | cons o rest ih =>
      rw [List.foldl_cons, ih]
      rw [sourceStep_fst]
      cases hf : fetchFor t fT fO o with
      | ok ms =>
          simp only [hf, mem_foldl_setAdd]
          constructor
          · rintro ((hx | hx) | ⟨org, horg, ms2, hms2, hx⟩)
            · exact Or.inl hx
            · exact Or.inr ⟨o, List.mem_cons_self o rest, ms, hf, hx⟩
            · exact Or.inr ⟨org, List.mem_cons_of_mem o horg, ms2, hms2, hx⟩
          · rintro (hx | ⟨org, horg, ms2, hms2, hx⟩)
            · exact Or.inl (Or.inl hx)
            · rcases List.mem_cons.mp horg with rfl | horg2
              · rw [hf] at hms2
                cases hms2
                exact Or.inl (Or.inr hx)
              · exact Or.inr ⟨org, horg2, ms2, hms2, hx⟩
      | error e =>
          simp only [hf]
          constructor
          · rintro (hx | ⟨org, horg, ms2, hms2, hx⟩)
            · exact Or.inl hx
            · exact Or.inr ⟨org, List.mem_cons_of_mem o horg, ms2, hms2, hx⟩
          · rintro (hx | ⟨org, horg, ms2, hms2, hx⟩)
            · exact Or.inl hx
            · rcases List.mem_cons.mp horg with rfl | horg2
              · rw [hf] at hms2
                cases hms2
              · exact Or.inr ⟨org, horg2, ms2, hms2, hx⟩

/-- The member set produced by the source fold is duplicate-free. -/
lemma nodup_foldl_sourceStep (t : String)
    (fT : String → String → Except String (List String))
    (fO : String → Except String (List String)) (orgs : List String)
    (acc : List String × List String) (h : acc.1.Nodup) :
    ((orgs.foldl (sourceStep t fT fO) acc).1).Nodup := by
  induction orgs generalizing acc with
  | nil => exact h
  | cons o rest ih =>
      rw [List.foldl_cons]
      apply ih
      rw [sourceStep_fst]
      cases hf : fetchFor t fT fO o with
      | ok ms => exact nodup_foldl_setAdd ms acc.1 h
      | error e => exact h

end CopilotChargeback

namespace CopilotChargeback

/-- When every request succeeds, the whole batch is attempted and no
error is raised. -/
lemma runMutations_allOk (mutate : MutationReq → Except String Unit)
    (reqs : List MutationReq) (h : ∀ r ∈ reqs, mutate r = .ok ()) :
    runMutations mutate reqs = (reqs, none) := by
  induction reqs with
  | nil => rfl
  | cons r rest ih =>
      have hr := h r (List.mem_cons_self r rest)
      rw [runMutations, hr]
      rw [ih (fun q hq => h q (List.mem_cons_of_mem r hq))]

/-- The first failing request stops the loop: everything before it is
attempted and succeeds, it is attempted and fails, nothing after it is
attempted, and its error message is the one raised. -/
lemma runMutations_append_error (mutate : MutationReq → Except String Unit)
    (pre post : List MutationReq) (r : MutationReq) (e : String)
    (hpre : ∀ p ∈ pre, mutate p = .ok ()) (hr : mutate r = .error e) :
    runMutations mutate (pre ++ r :: post) = (pre ++ [r], some e) := by
  induction pre with
  | nil =>
      rw [List.nil_append, runMutations, hr]
      rfl
  | cons p rest ih =>
      have hp := hpre p (List.mem_cons_self p rest)
      rw [List.cons_append, runMutations, hp]
      rw [ih (fun q hq => hpre q (List.mem_cons_of_mem p hq))]
      rfl

/-- Warnings already accumulated survive one source step. -/
lemma mem_snd_sourceStep (t : String)
    (fT : String → String → Except String (List String))
    (fO : String → Except String (List String))
    (acc : List String × List String) (org : String) (x : String)
    (h : x ∈ acc.2) : x ∈ (sourceStep t fT fO acc org).2 := by
  rw [sourceStep_snd]
  cases hf : fetchFor t fT fO org with
  | error e => exact List.mem_append_left _ h
  | ok ms => exact h

/-- Warnings already accumulated survive the whole source fold. -/
lemma mem_snd_foldl_sourceStep (t : String)
    (fT : String → String → Except String (List String))
    (fO : String → Except String (List String)) (orgs : List String)
    (acc : List String × List String) (x : String) (h : x ∈ acc.2) :
    x ∈ (orgs.foldl (sourceStep t fT fO) acc).2 := by
  induction orgs generalizing acc with
  | nil => exact h
  | cons o rest ih =>
      rw [List.foldl_cons]
      exact ih _ (mem_snd_sourceStep t fT fO acc o x h)

/-- C7: source aggregation merges all fetched member logins into one
deduplicating set: the aggregated list is duplicate-free, a login is in
it exactly when some source's successful fetch returned it (so a login
returned by two sources appears exactly once), and concretely sources
returning `a, b` and `b, c` aggregate to `a, b, c`. -/
theorem getOrganizationUsers_dedups (team_name : String)
    (fT : String → String → Except String (List String))
    (fO : String → Except String (List String)) (orgs : List String)
    (x : String) :
    ((getOrganizationUsers team_name fT fO orgs).1).Nodup ∧
    (x ∈ (getOrganizationUsers team_name fT fO orgs).1 ↔
      ∃ org ∈ orgs, ∃ ms, fetchFor team_name fT fO org = .ok ms ∧ x ∈ ms) ∧
    ((getOrganizationUsers team_name fT fO orgs).1).count x =
      (if x ∈ (getOrganizationUsers team_name fT fO orgs).1 then 1 else 0) ∧
    (getOrganizationUsers "" fetchTeamNone fetchOrgPair ["o1", "o2"]).1 =
      ["a", "b", "c"] := by
  have hnodup : ((getOrganizationUsers team_name fT fO orgs).1).Nodup :=
    nodup_foldl_sourceStep team_name fT fO orgs ([], []) List.nodup_nil
  refine ⟨hnodup, ?_, ?_, ?_⟩
  · rw [getOrganizationUsers, mem_foldl_sourceStep]
    simp
  · split
    · rename_i hmem
      exact List.count_eq_one_of_mem hnodup hmem
    · rename_i hmem
      exact List.count_eq_zero_of_not_mem hmem
  · decide

/-- C8: reconciling a member list against itself yields empty
`users_to_add` and `users_to_remove`, so no mutation request is built,
none is attempted, and the run does not fail. -/
theorem reconcile_self_noop (A : List String)
    (mutate : MutationReq → Except String Unit) :
    reconcile A A = ([], []) ∧
    mutationRequests (reconcile A A).1 (reconcile A A).2 = [] ∧
    (runCore A A mutate).1 = [] ∧
    (runCore A A mutate).2.1 = none := by
  have hempty : A.filter (fun u => !(A.contains u)) = [] := by
    rw [List.filter_eq_nil_iff]
    intro a ha
    simp [ha]
  have hrec : reconcile A A = ([], []) := by
    rw [reconcile, hempty]
  refine ⟨hrec, ?_, ?_, ?_⟩
  · rw [hrec]
    rfl
  · rw [runCore, hrec]
    rfl
  · rw [runCore, hrec]
    rfl

end CopilotChargeback

namespace CopilotChargeback

/-- C2: when a mutation request fails, the failing request is the last
one attempted (everything after it in the batch is never attempted, so
nothing is rolled back either — the trace ends with the successful
prefix still applied), the run fails with that mutation's own error
message, and the `result` output is not set. -/
theorem firstMutationFailure_aborts (cost_center_users github_users : List String)
    (mutate : MutationReq → Except String Unit)
    (pre post : List MutationReq) (r : MutationReq) (e : String)
    (hsplit : mutationRequests (reconcile github_users cost_center_users).1
        (reconcile github_users cost_center_users).2 = pre ++ r :: post)
    (hpre : ∀ p ∈ pre, mutate p = .ok ())
    (hr : mutate r = .error e) :
    (runCore cost_center_users github_users mutate).1 = pre ++ [r] ∧
    (runCore cost_center_users github_users mutate).2.1 = some e ∧
    (runCore cost_center_users github_users mutate).2.2 = none := by
  have h := runMutations_append_error mutate pre post r e hpre hr
  simp [runCore, hsplit, h]

/-- Witness for `firstMutationFailure_aborts`: with current `[u2]`,
desired `[u1, bad]` and an oracle that fails on the login `bad`, the
attempted trace is the successful add of `u1` followed by the failing
add of `bad`, the remove of `u2` is never attempted, the run fails with
`boom`, and no output is set. -/
theorem firstMutationFailure_aborts_witness :
    (runCore ["u2"] ["u1", "bad"] mutateBoom).1 =
      [⟨MutKind.add, "u1"⟩] ++ [⟨MutKind.add, "bad"⟩] ∧
    (runCore ["u2"] ["u1", "bad"] mutateBoom).2.1 = some "boom" ∧
    (runCore ["u2"] ["u1", "bad"] mutateBoom).2.2 = none :=
  firstMutationFailure_aborts ["u2"] ["u1", "bad"] mutateBoom
    [⟨MutKind.add, "u1"⟩] [⟨MutKind.remove, "u2"⟩] ⟨MutKind.add, "bad"⟩ "boom"
    (by decide) (by simp [mutateBoom]) rfl

/-- C4: every run that reaches the reporting step sets the `result`
output to exactly `Added users: ` ++ the comma-joined add list ++
`, Removed users: ` ++ the comma-joined remove list; with both lists
empty this is `Added users: , Removed users: `. -/
theorem result_output_format (cost_center_users github_users : List String)
    (mutate : MutationReq → Except String Unit)
    (h : (runMutations mutate (mutationRequests
        (reconcile github_users cost_center_users).1
        (reconcile github_users cost_center_users).2)).2 = none) :
    (runCore cost_center_users github_users mutate).2.2 =
      some ("Added users: " ++
        String.intercalate ", " (reconcile github_users cost_center_users).1 ++
        ", Removed users: " ++
        String.intercalate ", " (reconcile github_users cost_center_users).2) ∧
    (runCore [] [] mutate).2.2 = some "Added users: , Removed users: " := by
  constructor
  · simp only [runCore, h]
  · rfl

/-- Witness for `result_output_format`: current `[u2, u3]`, desired
`[u1, u2]`, all mutations succeeding, yields the output
`Added users: u1, Removed users: u3`. -/
theorem result_output_format_witness :
    (runCore ["u2", "u3"] ["u1", "u2"] mutateOk).2.2 =
      some ("Added users: " ++
        String.intercalate ", " (reconcile ["u1", "u2"] ["u2", "u3"]).1 ++
        ", Removed users: " ++
        String.intercalate ", " (reconcile ["u1", "u2"] ["u2", "u3"]).2) ∧
    (runCore [] [] mutateOk).2.2 = some "Added users: , Removed users: " :=
  result_output_format ["u2", "u3"] ["u1", "u2"] mutateOk (by decide)

end CopilotChargeback

namespace CopilotChargeback

/-- With an empty desired set and an all-succeeding oracle, the run tail
issues exactly one remove per current member and reports. -/
lemma runCore_empty_desired (users : List String) :
    runCore users [] mutateOk =
      (users.map (fun u => ⟨MutKind.remove, u⟩), none,
        some ("Added users: , Removed users: " ++ String.intercalate ", " users)) := by
  have hrec : reconcile [] users = ([], users) := by simp [reconcile]
  have hok : ∀ r ∈ users.map (fun u => (⟨MutKind.remove, u⟩ : MutationReq)),
      mutateOk r = .ok () := fun r _ => rfl
  have hstr : ("Added users: " ++ String.intercalate ", " ([] : List String) ++
      ", Removed users: ") = "Added users: , Removed users: " := by decide
  simp only [runCore, hrec, mutationRequests, List.map_nil, List.nil_append,
    runMutations_allOk _ _ hok]
  rw [← hstr]

/-- C9: a failed source fetch is absorbed inside the aggregation loop:
the failed source contributes zero members (removing it from the list
does not change the aggregated set), its `[WARN]` line is logged, and
when every source fetch fails the aggregated desired set is empty, so
the run does not fail but instead issues one remove request for every
current member and still reports. -/
theorem sourceFailure_warn_continue (t : String)
    (fT : String → String → Except String (List String))
    (fO : String → Except String (List String))
    (l1 l2 : List String) (bad e : String)
    (hbad : fetchFor t fT fO bad = .error e)
    (centers : List CostCenter) (name id : String)
    (users orgsAll : List String)
    (fT2 : String → String → Except String (List String))
    (fO2 : String → Except String (List String))
    (hcc : getCostCenter centers name = .ok (id, users, orgsAll))
    (hall : ∀ org ∈ orgsAll, ∃ msg, fetchFor t fT2 fO2 org = .error msg) :
    (getOrganizationUsers t fT fO (l1 ++ bad :: l2)).1 =
      (getOrganizationUsers t fT fO (l1 ++ l2)).1 ∧
    warnLine t bad e ∈ (getOrganizationUsers t fT fO (l1 ++ bad :: l2)).2 ∧
    (getOrganizationUsers t fT2 fO2 orgsAll).1 = [] ∧
    (run t name centers fT2 fO2 mutateOk).failed = none ∧
    (run t name centers fT2 fO2 mutateOk).attempted =
      users.map (fun u => ⟨MutKind.remove, u⟩) ∧
    (run t name centers fT2 fO2 mutateOk).output =
      some ("Added users: , Removed users: " ++ String.intercalate ", " users) := by
  have hC : (getOrganizationUsers t fT2 fO2 orgsAll).1 = [] := by
    rw [List.eq_nil_iff_forall_not_mem]
    intro x hx
    rw [getOrganizationUsers, mem_foldl_sourceStep] at hx
    rcases hx with hx | ⟨org, horg, ms, hms, _⟩
    · simp at hx
    · rcases hall org horg with ⟨msg, hmsg⟩
      rw [hmsg] at hms
      cases hms
  have hrun : run t name centers fT2 fO2 mutateOk =
      { attempted := users.map (fun u => ⟨MutKind.remove, u⟩), failed := none,
        output := some ("Added users: , Removed users: " ++
          String.intercalate ", " users),
        warnings := (getOrganizationUsers t fT2 fO2 orgsAll).2,
        errorLogs := [] } := by
    simp only [run, hcc, hC, runCore_empty_desired]
  refine ⟨?_, ?_, hC, ?_, ?_, ?_⟩
  · rw [getOrganizationUsers, getOrganizationUsers, List.foldl_append,
      List.foldl_append, List.foldl_cons]
    apply foldl_sourceStep_fst_congr
    rw [sourceStep_fst, hbad]
  · rw [getOrganizationUsers, List.foldl_append, List.foldl_cons]
    apply mem_snd_foldl_sourceStep
    rw [sourceStep_snd, hbad]
    exact List.mem_append_right _ (List.mem_singleton.mpr rfl)
  · rw [hrun]
  · rw [hrun]
  · rw [hrun]

/-- Witness for `sourceFailure_warn_continue`: one cost center `cc` with
the direct member `alice` and the linked organization `o9`, whose fetch
fails; the aggregated set is empty, the failed run still removes `alice`
and reports. -/
theorem sourceFailure_warn_continue_witness :
    (getOrganizationUsers "" fetchTeamNone fetchOrgDown ([] ++ "o9" :: [])).1 =
      (getOrganizationUsers "" fetchTeamNone fetchOrgDown ([] ++ [])).1 ∧
    warnLine "" "o9" "api down" ∈
      (getOrganizationUsers "" fetchTeamNone fetchOrgDown ([] ++ "o9" :: [])).2 ∧
    (getOrganizationUsers "" fetchTeamNone fetchOrgDown ["o9"]).1 = [] ∧
    (run "" "cc" [⟨"idC", "cc", [⟨"User", "alice"⟩, ⟨"Org", "o9"⟩]⟩]
        fetchTeamNone fetchOrgDown mutateOk).failed = none ∧
    (run "" "cc" [⟨"idC", "cc", [⟨"User", "alice"⟩, ⟨"Org", "o9"⟩]⟩]
        fetchTeamNone fetchOrgDown mutateOk).attempted =
      ["alice"].map (fun u => ⟨MutKind.remove, u⟩) ∧
    (run "" "cc" [⟨"idC", "cc", [⟨"User", "alice"⟩, ⟨"Org", "o9"⟩]⟩]
        fetchTeamNone fetchOrgDown mutateOk).output =
      some ("Added users: , Removed users: " ++ String.intercalate ", " ["alice"]) :=
  sourceFailure_warn_continue "" fetchTeamNone fetchOrgDown [] [] "o9" "api down"
    rfl [⟨"idC", "cc", [⟨"User", "alice"⟩, ⟨"Org", "o9"⟩]⟩] "cc" "idC"
    ["alice"] ["o9"] fetchTeamNone fetchOrgDown rfl
    (fun _ _ => ⟨"api down", rfl⟩)

end CopilotChargeback

namespace CopilotChargeback

/-- C10: the current member list is taken verbatim (not deduplicated)
from the record's `User` resource entries: the multiplicity of a login
absent from the desired set survives into `users_to_remove`, and
concretely a record listing `dup` in two `User` entries produces two
remove requests for `dup` and the output
`Added users: , Removed users: dup, dup`. -/
theorem current_not_deduplicated (desired current : List String) (u : String) :
    ((reconcile desired current).2).count u =
      (if u ∈ desired then 0 else current.count u) ∧
    getCostCenter [⟨"idX", "cc", [⟨"User", "dup"⟩, ⟨"User", "dup"⟩]⟩] "cc" =
      .ok ("idX", ["dup", "dup"], []) ∧
    (run "" "cc" [⟨"idX", "cc", [⟨"User", "dup"⟩, ⟨"User", "dup"⟩]⟩]
        fetchTeamNone fetchOrgEmptyOk mutateOk).attempted =
      [⟨MutKind.remove, "dup"⟩, ⟨MutKind.remove, "dup"⟩] ∧
    (run "" "cc" [⟨"idX", "cc", [⟨"User", "dup"⟩, ⟨"User", "dup"⟩]⟩]
        fetchTeamNone fetchOrgEmptyOk mutateOk).output =
      some "Added users: , Removed users: dup, dup" := by
  refine ⟨?_, rfl, by decide, by decide⟩
  split
  · rename_i h
    rw [List.count_eq_zero]
    intro hmem
    rw [reconcile, List.mem_filter] at hmem
    simp [h] at hmem
  · rename_i h
    apply List.count_filter
    simp [h]

/-- C3 fails on the code: a cost center whose only resource is the
direct `User` entry `alice` (and no linked organizations) hands the
empty list to reconciliation as the desired set, so the direct `User`
entry is not in the desired set (it is treated as current membership
and removed). -/
theorem desired_union_counterexample :
    getCostCenter [⟨"id1", "cc", [⟨"User", "alice"⟩]⟩] "cc" =
      .ok ("id1", ["alice"], []) ∧
    desiredHandedToReconcile "" "cc" [⟨"id1", "cc", [⟨"User", "alice"⟩]⟩]
      fetchTeamNone fetchOrgEmptyOk = some [] ∧
    "alice" ∉ ([] : List String) ∧
    (run "" "cc" [⟨"id1", "cc", [⟨"User", "alice"⟩]⟩] fetchTeamNone
        fetchOrgEmptyOk mutateOk).attempted = [⟨MutKind.remove, "alice"⟩] :=
  ⟨rfl, rfl, by simp, by decide⟩

/-- C3 amended: the desired set handed to reconciliation consists
exactly of the members resolved live from the linked organizations; the
record's direct `User` entries are handed to reconciliation as the
current set instead. -/
theorem desired_is_orgResolved_only (team name : String)
    (centers : List CostCenter)
    (fT : String → String → Except String (List String))
    (fO : String → Except String (List String))
    (id : String) (users orgs : List String) (x : String)
    (hcc : getCostCenter centers name = .ok (id, users, orgs)) :
    desiredHandedToReconcile team name centers fT fO =
      some (getOrganizationUsers team fT fO orgs).1 ∧
    currentHandedToReconcile name centers = some users ∧
    (x ∈ (getOrganizationUsers team fT fO orgs).1 ↔
      ∃ org ∈ orgs, ∃ ms, fetchFor team fT fO org = .ok ms ∧ x ∈ ms) := by
  refine ⟨?_, ?_, ?_⟩
  · simp only [desiredHandedToReconcile, hcc]
  · simp only [currentHandedToReconcile, hcc]
  · rw [getOrganizationUsers, mem_foldl_sourceStep]
    simp

/-- Witness for `desired_is_orgResolved_only`: one record with a direct
`User` entry `alice` and a linked organization `o1`. -/
theorem desired_is_orgResolved_only_witness :
    desiredHandedToReconcile "" "cc"
      [⟨"id1", "cc", [⟨"User", "alice"⟩, ⟨"Org", "o1"⟩]⟩]
      fetchTeamNone fetchOrgPair =
      some (getOrganizationUsers "" fetchTeamNone fetchOrgPair ["o1"]).1 ∧
    currentHandedToReconcile "cc"
      [⟨"id1", "cc", [⟨"User", "alice"⟩, ⟨"Org", "o1"⟩]⟩] = some ["alice"] ∧
    ("a" ∈ (getOrganizationUsers "" fetchTeamNone fetchOrgPair ["o1"]).1 ↔
      ∃ org ∈ ["o1"], ∃ ms, fetchFor "" fetchTeamNone fetchOrgPair org = .ok ms ∧
        "a" ∈ ms) :=
  desired_is_orgResolved_only "" "cc"
    [⟨"id1", "cc", [⟨"User", "alice"⟩, ⟨"Org", "o1"⟩]⟩]
    fetchTeamNone fetchOrgPair "id1" ["alice"] ["o1"] "a" rfl

end CopilotChargeback

namespace CopilotChargeback

/-- C5 fails on the code as stated: with one available cost center named
`other` and the request for `cc`, the run fails with
`Cost center with name cc not found` — a message that does not contain
the available center name `other` (the available names go to a console
error log, not into the failure message). -/
theorem notFound_message_counterexample :
    (run "" "cc" [⟨"id0", "other", []⟩] fetchTeamNone fetchOrgEmptyOk
        mutateOk).failed = some "Cost center with name cc not found" ∧
    containsSubstr "Cost center with name cc not found" "other" = false :=
  ⟨rfl, by decide⟩

/-- C5 amended: when no fetched cost center bears the requested name the
run fails, its failure message is `Cost center with name <name> not
found` (which contains the requested name); the available cost-center
names are listed in a console error line, not in the failure message,
and no `result` output is set. -/
theorem notFound_failure_message (team name : String)
    (centers : List CostCenter)
    (fT : String → String → Except String (List String))
    (fO : String → Except String (List String))
    (mutate : MutationReq → Except String Unit)
    (h : centers.find? (fun c => c.name == name) = none) :
    (run team name centers fT fO mutate).failed =
      some ("Cost center with name " ++ name ++ " not found") ∧
    containsSubstr ("Cost center with name " ++ name ++ " not found") name = true ∧
    (run team name centers fT fO mutate).errorLogs =
      [availableCentersLog centers,
        costCenterCatchLog ("Cost center with name " ++ name ++ " not found")] ∧
    (run team name centers fT fO mutate).output = none := by
  have hg : getCostCenter centers name =
      .error ("Cost center with name " ++ name ++ " not found") := by
    rw [getCostCenter, h]
  refine ⟨?_, ?_, ?_, ?_⟩
  · simp only [run, hg]
  · simp only [containsSubstr, decide_eq_true_eq]
    have h2 : ("Cost center with name " ++ name ++ " not found").toList =
        "Cost center with name ".toList ++ name.toList ++ " not found".toList := by
      simp [String.toList]
    rw [h2]
    exact List.infix_append _ _ _
  · simp only [run, hg]
  · simp only [run, hg]

/-- Witness for `notFound_failure_message`: the single available center
is named `other`, the request is for `cc`. -/
theorem notFound_failure_message_witness :
    (run "" "cc" [⟨"id0", "other", []⟩] fetchTeamNone fetchOrgEmptyOk
        mutateOk).failed =
      some ("Cost center with name " ++ "cc" ++ " not found") ∧
    containsSubstr ("Cost center with name " ++ "cc" ++ " not found") "cc" = true ∧
    (run "" "cc" [⟨"id0", "other", []⟩] fetchTeamNone fetchOrgEmptyOk
        mutateOk).errorLogs =
      [availableCentersLog [⟨"id0", "other", []⟩],
        costCenterCatchLog ("Cost center with name " ++ "cc" ++ " not found")] ∧
    (run "" "cc" [⟨"id0", "other", []⟩] fetchTeamNone fetchOrgEmptyOk
        mutateOk).output = none :=
  notFound_failure_message "" "cc" [⟨"id0", "other", []⟩] fetchTeamNone
    fetchOrgEmptyOk mutateOk rfl

/-- C6: target-group resolution partitions the record's resources by
type: resolution succeeds with the `Org` entries' names as the linked
organizations and the `User` entries' names as the direct members; a
name is among the linked organizations exactly when some `Org` entry
bears it, and among the direct members exactly when some `User` entry
bears it, so entries of any other type (e.g. `Repo`) are ignored and do
not make resolution fail. -/
theorem resourcePartition (centers : List CostCenter) (name : String)
    (cc : CostCenter)
    (h : centers.find? (fun c => c.name == name) = some cc) (n : String) :
    getCostCenter centers name = .ok (cc.id,
      (cc.resources.filter (fun r => r.type == "User")).map (fun r => r.name),
      (cc.resources.filter (fun r => r.type == "Org")).map (fun r => r.name)) ∧
    (n ∈ (cc.resources.filter (fun r => r.type == "Org")).map (fun r => r.name) ↔
      ∃ r ∈ cc.resources, r.type = "Org" ∧ r.name = n) ∧
    (n ∈ (cc.resources.filter (fun r => r.type == "User")).map (fun r => r.name) ↔
      ∃ r ∈ cc.resources, r.type = "User" ∧ r.name = n) := by
  refine ⟨?_, ?_, ?_⟩
  · rw [getCostCenter, h]
  · simp [List.mem_map, List.mem_filter]
    constructor
    · rintro ⟨r, ⟨hr, ht⟩, hn⟩
      exact ⟨r, hr, ht, hn⟩
    · rintro ⟨r, hr, ht, hn⟩
      exact ⟨r, ⟨hr, ht⟩, hn⟩
  · simp [List.mem_map, List.mem_filter]
    constructor
    · rintro ⟨r, ⟨hr, ht⟩, hn⟩
      exact ⟨r, hr, ht, hn⟩
    · rintro ⟨r, hr, ht, hn⟩
      exact ⟨r, ⟨hr, ht⟩, hn⟩

/-- Witness for `resourcePartition`: a record holding an `Org`, a `User`
and a `Repo` entry resolves successfully, with the `Repo` entry (name
`r1`) in neither output list. -/
theorem resourcePartition_witness :
    getCostCenter [⟨"idW", "cc",
        [⟨"Org", "o1"⟩, ⟨"User", "alice"⟩, ⟨"Repo", "r1"⟩]⟩] "cc" =
      .ok ((⟨"idW", "cc", [⟨"Org", "o1"⟩, ⟨"User", "alice"⟩, ⟨"Repo", "r1"⟩]⟩ :
          CostCenter).id,
        (((⟨"idW", "cc", [⟨"Org", "o1"⟩, ⟨"User", "alice"⟩, ⟨"Repo", "r1"⟩]⟩ :
          CostCenter).resources.filter (fun r => r.type == "User")).map
            (fun r => r.name)),
        (((⟨"idW", "cc", [⟨"Org", "o1"⟩, ⟨"User", "alice"⟩, ⟨"Repo", "r1"⟩]⟩ :
          CostCenter).resources.filter (fun r => r.type == "Org")).map
            (fun r => r.name))) ∧
    ("r1" ∈ (((⟨"idW", "cc", [⟨"Org", "o1"⟩, ⟨"User", "alice"⟩, ⟨"Repo", "r1"⟩]⟩ :
          CostCenter).resources.filter (fun r => r.type == "Org")).map
            (fun r => r.name)) ↔
      ∃ r ∈ (⟨"idW", "cc", [⟨"Org", "o1"⟩, ⟨"User", "alice"⟩, ⟨"Repo", "r1"⟩]⟩ :
          CostCenter).resources, r.type = "Org" ∧ r.name = "r1") ∧
    ("r1" ∈ (((⟨"idW", "cc", [⟨"Org", "o1"⟩, ⟨"User", "alice"⟩, ⟨"Repo", "r1"⟩]⟩ :
          CostCenter).resources.filter (fun r => r.type == "User")).map
            (fun r => r.name)) ↔
      ∃ r ∈ (⟨"idW", "cc", [⟨"Org", "o1"⟩, ⟨"User", "alice"⟩, ⟨"Repo", "r1"⟩]⟩ :
          CostCenter).resources, r.type = "User" ∧ r.name = "r1") :=
  resourcePartition [⟨"idW", "cc",
      [⟨"Org", "o1"⟩, ⟨"User", "alice"⟩, ⟨"Repo", "r1"⟩]⟩] "cc"
    ⟨"idW", "cc", [⟨"Org", "o1"⟩, ⟨"User", "alice"⟩, ⟨"Repo", "r1"⟩]⟩ rfl "r1"

end CopilotChargeback
